/-
Verification of the easybase table access layer (easybase/table.py) against
its natural-language specification.

Shallow embedding conventions:
* Python ints are `Int`, byte strings / strings are `String`, `None` is
  `Option.none`, and fallible Python code returns `Except PyError`.
* Python dicts are insertion-ordered association lists (`List (key × val)`);
  updating an existing key keeps its position, a fresh key is appended —
  exactly the observable behaviour of CPython dicts / OrderedDict.
* Calls issued through `self.connection.client` are recorded as a trace
  (`List RPC`).  Server responses are supplied as explicit parameters (for
  one-shot calls) or as a stateful fetch oracle (for scans), so theorems
  quantify over every possible server behaviour.
* The scan generator's lazy iteration is modelled by running its body to
  completion with an explicit `abandonAfter` parameter: `some k` means the
  caller stops consuming after the k-th yielded row (Python then raises
  GeneratorExit at the yield point and the `finally` block runs).
  A fuel parameter bounds the number of fetch iterations; exhausting fuel is
  reported as `ScanExit.fuelOut` (the `finally` block still runs).
-/
import Mathlib

namespace EasyBase

/-- Python exception kinds raised by the embedded code. -/
inductive PyError
  | valueError (msg : String)
  | typeError (msg : String)
  | attributeError (msg : String)
  | indexError
deriving DecidableEq, Repr

/-- `ValueError` and `TypeError` are the "invalid argument" errors of the
spec's error taxonomy (§7). -/
def PyError.isInvalidArgument : PyError → Bool
  | PyError.valueError _ => true
  | PyError.typeError _ => true
  | _ => false

/-- A Python value stored in a row dict produced by `make_row`: a cell value,
an integer timestamp, or Python `None`. -/
inductive PyVal
  | str (s : String)
  | int (n : Int)
  | pynone
deriving DecidableEq, Repr

/-- An insertion-ordered Python dict with string keys. -/
abbrev PyDict := List (String × PyVal)

/-- `d[k] = v` on a Python dict: update in place if `k` is present
(keeping its position), else append. -/
def dictSet (d : PyDict) (k : String) (v : PyVal) : PyDict :=
  if k ∈ d.map Prod.fst then
    d.map (fun p => if p.1 = k then (k, v) else p)
  else
    d ++ [(k, v)]

/-- hbase.ttypes.TColumn (only the fields table.py sets). -/
structure TColumn where
  family : String
  qualifier : String
deriving DecidableEq, Repr

/-- hbase.ttypes.TColumnValue (only the fields table.py reads or sets). -/
structure TColumnValue where
  family : String
  qualifier : String
  value : String
  timestamp : Option Int
deriving DecidableEq, Repr

/-- hbase.ttypes.TTimeRange. -/
structure TTimeRange where
  minStamp : Int
  maxStamp : Int
deriving DecidableEq, Repr

/-- hbase.ttypes.TResult: one row returned by the server (`.row` and
`.columnValues` are the attributes table.py reads). -/
structure TResult where
  row : String
  columnValues : List TColumnValue
deriving DecidableEq, Repr

/-- A cell as consumed by `make_ordered_row` (`column.cell.value`,
`column.cell.timestamp`). -/
structure TCell where
  value : String
  timestamp : Option Int
deriving DecidableEq, Repr

/-- One element of the `sorted_columns` argument of `make_ordered_row`
(`column.columnName`, `column.cell`). -/
structure TSortedColumn where
  columnName : String
  cell : TCell
deriving DecidableEq, Repr

/-- What `Table.rows` and `Table.row` place in `TGet.columns`: `Table.rows`
passes the caller's string list verbatim (`raw`), `Table.row` first converts
through `make_columns` (`structured`). -/
inductive ColumnsArg
  | raw (cs : List String)
  | structured (cs : List TColumn)
deriving DecidableEq, Repr

/-- What `Table.rows` and `Table.row` place in `TGet.timeRange`:
`Table.rows` passes the caller's timestamp list verbatim (`raw`),
`Table.row` first converts through `make_timerange` (`structured`). -/
inductive TimeRangeArg
  | raw (ts : List Int)
  | structured (tr : TTimeRange)
deriving DecidableEq, Repr

/-- hbase.ttypes.TGet (only the fields table.py sets). -/
structure TGet where
  row : String
  columns : Option ColumnsArg
  timestamp : Option Int
  timeRange : Option TimeRangeArg
  maxVersions : Int
deriving DecidableEq, Repr

/-- hbase.ttypes.TScan (only the fields table.py sets). -/
structure TScan where
  startRow : String
  stopRow : Option String
  timeRange : Option TTimeRange
  columns : Option (List TColumn)
  caching : Int
  filterString : Option String
  batchSize : Option Int
  reversed : Bool
deriving DecidableEq, Repr

/-- hbase.ttypes.TPut (only the fields table.py sets). -/
structure TPut where
  row : String
  columnValues : List TColumnValue
  durability : Bool
  timestamp : Option Int
deriving DecidableEq, Repr

/-- One remote call issued through `self.connection.client`. -/
inductive RPC
  | openScanner (table : String) (tscan : TScan)
  | getScannerRows (scanId : Int) (howMany : Int)
  | closeScanner (scanId : Int)
  | get (table : String) (tget : TGet)
  | getMultiple (table : String) (tgets : List TGet)
  | put (table : String) (tput : TPut)
deriving DecidableEq, Repr

def RPC.isCloseScanner : RPC → Bool
  | RPC.closeScanner _ => true
  | _ => false

def RPC.isOpenScanner : RPC → Bool
  | RPC.openScanner _ _ => true
  | _ => false

/-- The how-many argument of a `getScannerRows` event, if it is one. -/
def rpcFetchCount : RPC → Option Int
  | RPC.getScannerRows _ k => some k
  | _ => none

/-- The how-many argument of every `getScannerRows` call in a trace, in
order. -/
def fetchCounts (trace : List RPC) : List Int :=
  trace.filterMap rpcFetchCount

/-- `Table.__init__` stores only the table name and the connection; the
connection's client is modelled externally (response parameters / oracles),
so the embedded table state is just the name.  Note that no other attribute
(in particular no `wal`) is ever set on a table instance. -/
structure Table where
  name : String
deriving DecidableEq, Repr

/-! ## Column/Range codec (module-level functions of table.py) -/

/-- `make_timerange(ts)`.  The source is
```
if ts is None: return ts
if not isinstance(ts, (tuple, list)): raise TypeError(...)
if len(ts) == 1:
    ts[1]=time.now()
return TTimeRange(minStamp=ts[0],maxStamp=ts[1])
```
The typed embedding takes `Option (List Int)`, so the TypeError branch is
unrepresentable.  On a 1-element list the source evaluates `time.now()`:
the standard `time` module has no attribute `now` (the function is
`time.time`), so this raises AttributeError before the (itself out-of-range)
`ts[1] = ...` assignment.  On lists of length ≠ 1, `ts[0]` / `ts[1]` raise
IndexError when absent. -/
def make_timerange (ts : Option (List Int)) : Except PyError (Option TTimeRange) :=
  match ts with
  | none => Except.ok none
  | some l =>
    if l.length = 1 then
      Except.error (PyError.attributeError "module time has no attribute now")
    else
      match l[0]?, l[1]? with
      | some a, some b => Except.ok (some { minStamp := a, maxStamp := b })
      | _, _ => Except.error PyError.indexError

/-- Python's `s.split(':')` at the character level: split on every
occurrence of the separator; the empty string yields `[""]`. -/
def splitColonChars : List Char → List (List Char)
  | [] => [[]]
  | c :: rest =>
    if c = ':' then [] :: splitColonChars rest
    else
      match splitColonChars rest with
      | [] => [[c]]
      | s :: ss => (c :: s) :: ss

/-- Python's `s.split(':')`. -/
def pySplitColon (s : String) : List String :=
  (splitColonChars s.data).map String.mk

/-- `make_columns(cols)`: split each `"family:qualifier"` string on `:`.
`f, q = c.split(':')` raises ValueError unless the split has exactly two
parts. -/
def make_columns (cols : Option (List String)) : Except PyError (Option (List TColumn)) :=
  match cols with
  | none => Except.ok none
  | some l => do
    let columns ← l.mapM fun c =>
      match pySplitColon c with
      | [f, q] => Except.ok { family := f, qualifier := q : TColumn }
      | _ => Except.error (PyError.valueError "unpack")
    Except.ok (some columns)

/-- `make_columnvalue(data)`: the dict is embedded as an association list in
iteration order.  `f, q = column.split(":")` raises ValueError unless the
split has exactly two parts; `TColumnValue` is built without a timestamp. -/
def make_columnvalue (data : List (String × String)) : Except PyError (List TColumnValue) :=
  data.mapM fun p =>
    match pySplitColon p.1 with
    | [f, q] =>
        Except.ok { family := f, qualifier := q, value := p.2, timestamp := none : TColumnValue }
    | _ => Except.error (PyError.valueError "unpack")

def pyOfTimestamp : Option Int → PyVal
  | some t => PyVal.int t
  | none => PyVal.pynone

/-- `make_row(cell_map, include_timestamp)`.  The source is
```
rs = []
tmp_d = dict()
for r in cell_map:
    tmp_d[r.family + ':' + r.qualifier] = r.value
    tmp_d['timestamp'] = r.timestamp
    rs.append(tmp_d)
return rs
```
`include_timestamp` is never consulted.  Every iteration appends the *same*
dict object `tmp_d` to `rs`, so at return the list holds
`cell_map.length` references to the final state of `tmp_d`; value-
semantically this is `List.replicate` of the final dict. -/
def make_row (cell_map : List TColumnValue) (include_timestamp : Bool) : List PyDict :=
  let final := cell_map.foldl
    (fun d r =>
      dictSet (dictSet d (r.family ++ ":" ++ r.qualifier) (PyVal.str r.value))
        "timestamp" (pyOfTimestamp r.timestamp))
    []
  List.replicate cell_map.length final

/-- The value `cellfn(column.cell)` computed inside `make_ordered_row`:
`attrgetter('value', 'timestamp')` (a pair) when `include_timestamp`, else
`attrgetter('value')`. -/
inductive CellOut
  | plain (v : String)
  | withTs (v : String) (t : Option Int)
deriving DecidableEq, Repr

/-- Modelled from the spec: `OrderedDict` is imported from the repository's
`util` module, which is not under src/.  Per the spec's data model (§3) a
row mapping keeps insertion order; inserting an existing key updates its
value in place, a fresh key is appended at the end.  `odInsert` is one such
insertion. -/
def odInsert (d : List (String × CellOut)) (k : String) (v : CellOut) :
    List (String × CellOut) :=
  if k ∈ d.map Prod.fst then
    d.map (fun p => if p.1 = k then (k, v) else p)
  else
    d ++ [(k, v)]

/-- `make_ordered_row(sorted_columns, include_timestamp)`: builds an
OrderedDict from `(column.columnName, cellfn(column.cell))` pairs, iterating
`sorted_columns` in the order given.  No sorting is performed by this
function. -/
def make_ordered_row (sorted_columns : List TSortedColumn) (include_timestamp : Bool) :
    List (String × CellOut) :=
  sorted_columns.foldl
    (fun d column =>
      odInsert d column.columnName
        (if include_timestamp then CellOut.withTs column.cell.value column.cell.timestamp
         else CellOut.plain column.cell.value))
    []

/-- Modelled from the spec: `str_increment` lives in the repository's `util`
module, which is not under src/.  Spec §4.1 (`expandPrefix`): increment the
last byte that is not 0xFF, truncating trailing 0xFF bytes first; a string
of only 0xFF bytes has no bounded successor and is signalled as `none`. -/
def str_increment (s : String) : Option String :=
  match (s.data.reverse.dropWhile fun c => c.toNat = 255) with
  | [] => none
  | c :: rest => some (String.mk ((Char.ofNat (c.toNat + 1) :: rest).reverse))

/-! ## Table read/write operations -/

/-- Result of `Table.row`: either the literal `{}` returned when the server
reports no row, or the (buggy, list-shaped) output of `make_row`. -/
inductive RowResult
  | emptyDict
  | decoded (r : List PyDict)
deriving DecidableEq, Repr

/-- `Table.row`: validates shapes, converts `columns` via `make_columns` and
`timerange` via `make_timerange`, issues one `get` RPC, decodes with
`make_row` (or returns `{}` when the server result is falsy).
`serverResult` is the client's response to the single `get`. -/
def Table.row (t : Table) (rowKey : String) (columns : Option (List String))
    (timestamp : Option Int) (timerange : Option (List Int)) (maxversions : Int)
    (include_timestamp : Bool) (serverResult : Option TResult) :
    Except PyError (RowResult × List RPC) := do
  let cols ← make_columns columns
  let tt ← make_timerange timerange
  let tget : TGet :=
    { row := rowKey, columns := cols.map ColumnsArg.structured, timestamp := timestamp,
      timeRange := tt.map TimeRangeArg.structured, maxVersions := maxversions }
  match serverResult with
  | none => pure (RowResult.emptyDict, [RPC.get t.name tget])
  | some r =>
      pure (RowResult.decoded (make_row r.columnValues include_timestamp),
            [RPC.get t.name tget])

/-- Result of `Table.rows`: the literal `{}` returned on an empty key list,
or the list of `(row key, decoded row)` pairs. -/
inductive RowsResult
  | emptyDict
  | pairs (ps : List (String × List PyDict))
deriving DecidableEq, Repr

/-- `Table.rows`: `if not rows: return {}` short-circuits with no RPC;
otherwise one `TGet` per key — with `columns` and `timerange` passed
verbatim, NOT converted — and a single `getMultiple` RPC.  `serverResults`
is the client's response to that RPC; the result pairs follow its order. -/
def Table.rows (t : Table) (rowKeys : List String) (columns : Option (List String))
    (timestamp : Option Int) (timerange : Option (List Int)) (maxversions : Int)
    (include_timestamp : Bool) (serverResults : List TResult) :
    RowsResult × List RPC :=
  if rowKeys.isEmpty then
    (RowsResult.emptyDict, [])
  else
    (RowsResult.pairs
       (serverResults.map fun r => (r.row, make_row r.columnValues include_timestamp)),
     [RPC.getMultiple t.name
        (rowKeys.map fun r =>
          { row := r, columns := columns.map ColumnsArg.raw, timestamp := timestamp,
            timeRange := timerange.map TimeRangeArg.raw, maxVersions := maxversions })])

/-- `Table.put`: `if wal is None: wal = self.wal` — but `Table.__init__`
sets only `name` and `connection`, and nothing else ever assigns a `wal`
attribute, so the lookup raises AttributeError.  Otherwise the data dict is
converted by `make_columnvalue` and one `put` RPC is issued with
`durability=wal`. -/
def Table.put (t : Table) (rowKey : String) (data : List (String × String))
    (timestamp : Option Int) (wal : Option Bool) : Except PyError (List RPC) := do
  let w ←
    match wal with
    | none => Except.error (PyError.attributeError "Table object has no attribute wal")
    | some w => pure w
  let cols ← make_columnvalue data
  pure [RPC.put t.name
          { row := rowKey, columnValues := cols, durability := w, timestamp := timestamp }]

/-- `Table.puts(self, rows): pass` — accepts anything, does nothing, returns
`None`; trace of issued RPCs is empty. -/
def Table.puts {α : Type} (t : Table) (rowsArg : α) : Unit × List RPC :=
  ((), [])

/-! ## Scan cursor (Table.scan) -/

/-- How control left the scan generator's body. -/
inductive ScanExit
  | precall (e : PyError)
  | exhausted
  | limitReached
  | abandoned
  | fetchError (e : String)
  | fuelOut
deriving DecidableEq, Repr

def ScanExit.isPrecall : ScanExit → Bool
  | ScanExit.precall _ => true
  | _ => false

/-- The client seen by the scan cursor: an opaque scanner id returned by
`openScanner` and a stateful `getScannerRows` oracle (state `σ`), which may
also raise (`Except.error` models a transport exception during a fetch). -/
structure ScanClient (σ : Type) where
  scanId : Int
  fetch : σ → Int → σ × Except String (List TResult)

/-- Lines 321–324: `how_many = batch_size` if no limit, else
`min(batch_size, limit - n_returned)`. -/
def scanHowMany (limit : Option Int) (batch_size n_returned : Int) : Int :=
  match limit with
  | none => batch_size
  | some l => min batch_size (l - n_returned)

/-- The inner `for n_returned, item in enumerate(items, n_returned + 1)`
loop: decode and yield each item; after a yield the caller may abandon
(`abandonAfter = some` of the total rows consumed), otherwise
`if limit is not None and n_returned == limit: return`.  Returns the yields
produced from this batch, the updated `n_returned`, and `some exit` if the
generator terminated inside the batch. -/
def processBatch (include_timestamp : Bool) (limit : Option Int)
    (abandonAfter : Option Int) :
    List TResult → Int → List (String × List PyDict) × Int × Option ScanExit
  | [], n => ([], n, none)
  | item :: rest, n =>
    if abandonAfter = some (n + 1) then
      ([(item.row, make_row item.columnValues include_timestamp)], n + 1,
       some ScanExit.abandoned)
    else if limit = some (n + 1) then
      ([(item.row, make_row item.columnValues include_timestamp)], n + 1,
       some ScanExit.limitReached)
    else
      ((item.row, make_row item.columnValues include_timestamp) ::
         (processBatch include_timestamp limit abandonAfter rest (n + 1)).1,
       (processBatch include_timestamp limit abandonAfter rest (n + 1)).2.1,
       (processBatch include_timestamp limit abandonAfter rest (n + 1)).2.2)

/-- The `while True` fetch loop of `Table.scan` (lines 320–340), after the
scanner is open.  Produces the trace of `getScannerRows` calls, the yielded
`(row key, decoded row)` pairs, and how the loop ended.  `fuel` bounds the
number of iterations (the Python loop has no such bound; every theorem
supplies enough fuel or treats `fuelOut` as an abandonment at a batch
boundary). -/
def scanLoop {σ : Type} (client : ScanClient σ) (limit : Option Int)
    (batch_size : Int) (include_timestamp : Bool) (abandonAfter : Option Int) :
    Nat → σ → Int → List RPC × List (String × List PyDict) × ScanExit
  | 0, _, _ => ([], [], ScanExit.fuelOut)
  | fuel + 1, s, n =>
    let how_many := scanHowMany limit batch_size n
    let fr := client.fetch s how_many
    match fr.2 with
    | Except.error e =>
        ([RPC.getScannerRows client.scanId how_many], [], ScanExit.fetchError e)
    | Except.ok items =>
      if items.isEmpty then
        ([RPC.getScannerRows client.scanId how_many], [], ScanExit.exhausted)
      else
        match (processBatch include_timestamp limit abandonAfter items n).2.2 with
        | some ex =>
            ([RPC.getScannerRows client.scanId how_many],
             (processBatch include_timestamp limit abandonAfter items n).1, ex)
        | none =>
          let rest := scanLoop client limit batch_size include_timestamp abandonAfter fuel fr.1
            (processBatch include_timestamp limit abandonAfter items n).2.1
          (RPC.getScannerRows client.scanId how_many :: rest.1,
           (processBatch include_timestamp limit abandonAfter items n).1 ++ rest.2.1,
           rest.2.2)

/-- `limit is not None and limit < 1` (and likewise for `scan_batching`). -/
def badOptInt (x : Option Int) : Bool :=
  match x with
  | some v => decide (v < 1)
  | none => false

/-- Everything `Table.scan` does before `openScanner` (lines 280–313):
the four argument validations, prefix-to-range derivation, codec conversion,
and construction of the `TScan` request. -/
def scanPrecheck (rowStart rowStop rowPrefix : Option String)
    (columns : Option (List String)) (filterStr : Option String)
    (timerange : Option (List Int)) (batch_size : Int)
    (scan_batching : Option Int) (limit : Option Int) (reversed : Bool) :
    Except PyError TScan :=
  if batch_size < 1 then
    Except.error (PyError.valueError "batch_size must be at least 1")
  else if badOptInt limit then
    Except.error (PyError.valueError "limit must be at least 1")
  else if badOptInt scan_batching then
    Except.error (PyError.valueError "scan_batching must be at least 1")
  else do
    let (start, stop) ←
      match rowPrefix with
      | some p =>
        if rowStart.isSome || rowStop.isSome then
          Except.error
            (PyError.typeError "row_prefix cannot be combined with row_start or row_stop")
        else
          pure (p, str_increment p)
      | none => pure (rowStart.getD "", rowStop)
    let cols ← make_columns columns
    let tt ← make_timerange timerange
    pure { startRow := start, stopRow := stop, timeRange := tt, columns := cols,
           caching := batch_size, filterString := filterStr,
           batchSize := scan_batching, reversed := reversed }

/-- The observable behaviour of one full run of the `Table.scan` generator:
every RPC issued, every `(row key, row)` pair yielded, and how the cursor
ended. -/
structure ScanOutcome where
  trace : List RPC
  yields : List (String × List PyDict)
  exit : ScanExit
deriving DecidableEq, Repr

/-- `Table.scan`: validation and request building (`scanPrecheck`), then
`openScanner`, the fetch loop, and — on every exit from the loop — the
`finally: self.connection.client.closeScanner(scan_id)`. -/
def Table.scan {σ : Type} (t : Table) (rowStart rowStop rowPrefix : Option String)
    (columns : Option (List String)) (filterStr : Option String)
    (timerange : Option (List Int)) (include_timestamp : Bool)
    (batch_size : Int) (scan_batching : Option Int) (limit : Option Int)
    (reversed : Bool) (client : ScanClient σ) (s0 : σ)
    (abandonAfter : Option Int) (fuel : Nat) : ScanOutcome :=
  match scanPrecheck rowStart rowStop rowPrefix columns filterStr timerange
      batch_size scan_batching limit reversed with
  | Except.error e => { trace := [], yields := [], exit := ScanExit.precall e }
  | Except.ok tscan =>
    let r := scanLoop client limit batch_size include_timestamp abandonAfter fuel s0 0
    { trace := RPC.openScanner t.name tscan :: r.1 ++ [RPC.closeScanner client.scanId],
      yields := r.2.1,
      exit := r.2.2 }

/-- A server holding a fixed list of rows: each fetch returns the next
`min(how_many, remaining)` rows.  This is the environment model used to
state the claims about ranges that contain enough matching rows. -/
def simpleFetch (s : List TResult) (how_many : Int) :
    List TResult × Except String (List TResult) :=
  (s.drop how_many.toNat, Except.ok (s.take how_many.toNat))

def simpleClient (id : Int) : ScanClient (List TResult) :=
  { scanId := id, fetch := simpleFetch }

/-- Refinement of the spec sentence "repeatedly requests
min(batchSize, limit - returnedSoFar) rows": the list of request sizes the
spec prescribes for a scan with batch size `b` that still owes `L` rows,
written with an explicit fuel so it is kernel-computable (`fuel = L`
suffices, since each step delivers at least one row when `b ≥ 1`). -/
def expectedHowManysAux (b : Nat) : Nat → Nat → List Nat
  | 0, _ => []
  | _, 0 => []
  | fuel + 1, L => min b L :: expectedHowManysAux b fuel (L - min b L)

/-- The fetch sizes the spec prescribes for batch size `b` and limit `L`. -/
def expectedHowManys (b L : Nat) : List Nat :=
  expectedHowManysAux b L L

/-! ## Helper lemmas -/

lemma processBatch_exit_cases (inc : Bool) (limit abandonAfter : Option Int) :
    ∀ (items : List TResult) (n : Int) (ex : ScanExit),
      (processBatch inc limit abandonAfter items n).2.2 = some ex →
      ex = ScanExit.abandoned ∨ ex = ScanExit.limitReached := by
  intro items
  induction items with
  | nil => intro n ex h; simp [processBatch] at h
  | cons item rest ih =>
    intro n ex h
    rw [processBatch] at h
    split at h
    · exact Or.inl (by simpa using h.symm)
    · split at h
      · exact Or.inr (by simpa using h.symm)
      · exact ih (n + 1) ex h

lemma scanLoop_trace_fetch {σ : Type} (client : ScanClient σ) (limit : Option Int)
    (batch_size : Int) (inc : Bool) (abandonAfter : Option Int) :
    ∀ (fuel : Nat) (s : σ) (n : Int) (e : RPC),
      e ∈ (scanLoop client limit batch_size inc abandonAfter fuel s n).1 →
      ∃ hm, e = RPC.getScannerRows client.scanId hm := by
  intro fuel
  induction fuel with
  | zero => intro s n e h; simp [scanLoop] at h
  | succ fuel ih =>
    intro s n e h
    rw [scanLoop] at h
    split at h
    · exact ⟨_, by simpa using h⟩
    · split at h
      · exact ⟨_, by simpa using h⟩
      · split at h
        · exact ⟨_, by simpa using h⟩
        · simp only [List.mem_cons] at h
          rcases h with h | h
          · exact ⟨_, h⟩
          · exact ih _ _ e h

lemma scanLoop_countP_close {σ : Type} (client : ScanClient σ) (limit : Option Int)
    (batch_size : Int) (inc : Bool) (abandonAfter : Option Int)
    (fuel : Nat) (s : σ) (n : Int) :
    (scanLoop client limit batch_size inc abandonAfter fuel s n).1.countP
      RPC.isCloseScanner = 0 := by
  refine List.countP_eq_zero.mpr ?_
  intro e he
  rcases scanLoop_trace_fetch client limit batch_size inc abandonAfter fuel s n e he with
    ⟨hm, rfl⟩
  simp [RPC.isCloseScanner]

lemma scanLoop_countP_open {σ : Type} (client : ScanClient σ) (limit : Option Int)
    (batch_size : Int) (inc : Bool) (abandonAfter : Option Int)
    (fuel : Nat) (s : σ) (n : Int) :
    (scanLoop client limit batch_size inc abandonAfter fuel s n).1.countP
      RPC.isOpenScanner = 0 := by
  refine List.countP_eq_zero.mpr ?_
  intro e he
  rcases scanLoop_trace_fetch client limit batch_size inc abandonAfter fuel s n e he with
    ⟨hm, rfl⟩
  simp [RPC.isOpenScanner]

lemma scanLoop_exit_not_precall {σ : Type} (client : ScanClient σ) (limit : Option Int)
    (batch_size : Int) (inc : Bool) (abandonAfter : Option Int) :
    ∀ (fuel : Nat) (s : σ) (n : Int),
      (scanLoop client limit batch_size inc abandonAfter fuel s n).2.2.isPrecall = false := by
  intro fuel
  induction fuel with
  | zero => intro s n; simp [scanLoop, ScanExit.isPrecall]
  | succ fuel ih =>
    intro s n
    rw [scanLoop]
    split
    · rfl
    · split
      · rfl
      · split
        · rename_i ex hex
          rcases processBatch_exit_cases _ _ _ _ _ _ hex with h | h <;>
            simp [h, ScanExit.isPrecall]
        · exact ih _ _

lemma scanPrecheck_invalid (rowStart rowStop rowPrefix : Option String)
    (columns : Option (List String)) (filterStr : Option String)
    (timerange : Option (List Int)) (batch_size : Int)
    (scan_batching : Option Int) (limit : Option Int) (reversed : Bool)
    (h : batch_size < 1 ∨ (∃ l, limit = some l ∧ l < 1) ∨
         (∃ sb, scan_batching = some sb ∧ sb < 1) ∨
         (rowPrefix.isSome = true ∧ (rowStart.isSome = true ∨ rowStop.isSome = true))) :
    ∃ e, scanPrecheck rowStart rowStop rowPrefix columns filterStr timerange
        batch_size scan_batching limit reversed = Except.error e ∧
      e.isInvalidArgument = true := by
  by_cases h1 : batch_size < 1
  · refine ⟨PyError.valueError "batch_size must be at least 1", ?_, rfl⟩
    simp [scanPrecheck, h1]
  by_cases h2 : badOptInt limit = true
  · refine ⟨PyError.valueError "limit must be at least 1", ?_, rfl⟩
    simp [scanPrecheck, h1, h2]
  by_cases h3 : badOptInt scan_batching = true
  · refine ⟨PyError.valueError "scan_batching must be at least 1", ?_, rfl⟩
    simp [scanPrecheck, h1, h2, h3]
  rcases h with hh | ⟨l, hl, hl1⟩ | ⟨sb, hsb, hsb1⟩ | ⟨hp, hss⟩
  · exact absurd hh h1
  · exact absurd (by simp [badOptInt, hl, hl1]) h2
  · exact absurd (by simp [badOptInt, hsb, hsb1]) h3
  · rcases Option.isSome_iff_exists.mp hp with ⟨p, rfl⟩
    refine ⟨PyError.typeError "row_prefix cannot be combined with row_start or row_stop",
      ?_, rfl⟩
    have hor : (rowStart.isSome || rowStop.isSome) = true := by
      rcases hss with h | h <;> simp [h]
    simp only [scanPrecheck, h1, h2, h3, hor, if_false, if_true]
    rfl

/-! ## Claim theorems -/

/-- Claim C1: on every way control leaves the scan cursor after the scanner is
opened — range exhausted, limit reached, a transport error while fetching,
the caller abandoning iteration early (and even the model's fuel bound,
which corresponds to abandoning at a batch boundary) — the trace ends up
containing exactly one `closeScanner`, it names the handle obtained from
`openScanner`, and exactly one `openScanner`.  The hypothesis excludes only
the runs on which validation fails before the scanner is ever opened. -/
theorem scan_closes_scanner_exactly_once {σ : Type} (t : Table)
    (rowStart rowStop rowPrefix : Option String) (columns : Option (List String))
    (filterStr : Option String) (timerange : Option (List Int))
    (include_timestamp : Bool) (batch_size : Int) (scan_batching : Option Int)
    (limit : Option Int) (reversed : Bool) (client : ScanClient σ) (s0 : σ)
    (abandonAfter : Option Int) (fuel : Nat)
    (h : (Table.scan t rowStart rowStop rowPrefix columns filterStr timerange
        include_timestamp batch_size scan_batching limit reversed client s0
        abandonAfter fuel).exit.isPrecall = false) :
    (Table.scan t rowStart rowStop rowPrefix columns filterStr timerange
        include_timestamp batch_size scan_batching limit reversed client s0
        abandonAfter fuel).trace.countP RPC.isCloseScanner = 1 ∧
    RPC.closeScanner client.scanId ∈
      (Table.scan t rowStart rowStop rowPrefix columns filterStr timerange
        include_timestamp batch_size scan_batching limit reversed client s0
        abandonAfter fuel).trace ∧
    (Table.scan t rowStart rowStop rowPrefix columns filterStr timerange
        include_timestamp batch_size scan_batching limit reversed client s0
        abandonAfter fuel).trace.countP RPC.isOpenScanner = 1 := by
  cases hpre : scanPrecheck rowStart rowStop rowPrefix columns filterStr timerange
      batch_size scan_batching limit reversed with
  | error e =>
    simp only [Table.scan, hpre] at h
    simp [ScanExit.isPrecall] at h
  | ok tscan =>
    simp only [Table.scan, hpre]
    refine ⟨?_, ?_, ?_⟩
    · simp [List.countP_cons, List.countP_append, RPC.isCloseScanner,
        scanLoop_countP_close]
    · simp
    · simp [List.countP_cons, List.countP_append, RPC.isOpenScanner,
        scanLoop_countP_open]

/-- Witness for C1: a concrete abandoned scan (caller consumes 2 of 10 rows)
still closes its scanner exactly once. -/
theorem scan_closes_scanner_exactly_once_witness :
    (Table.scan { name := "t" } none none none none none none false 4 none none false
      (simpleClient 7)
      [{ row := "r1", columnValues := [] }, { row := "r2", columnValues := [] },
       { row := "r3", columnValues := [] }, { row := "r4", columnValues := [] },
       { row := "r5", columnValues := [] }, { row := "r6", columnValues := [] },
       { row := "r7", columnValues := [] }, { row := "r8", columnValues := [] },
       { row := "r9", columnValues := [] }, { row := "r10", columnValues := [] }]
      (some 2) 10).trace.countP RPC.isCloseScanner = 1 ∧
    RPC.closeScanner 7 ∈
      (Table.scan { name := "t" } none none none none none none false 4 none none false
        (simpleClient 7)
        [{ row := "r1", columnValues := [] }, { row := "r2", columnValues := [] },
         { row := "r3", columnValues := [] }, { row := "r4", columnValues := [] },
         { row := "r5", columnValues := [] }, { row := "r6", columnValues := [] },
         { row := "r7", columnValues := [] }, { row := "r8", columnValues := [] },
         { row := "r9", columnValues := [] }, { row := "r10", columnValues := [] }]
        (some 2) 10).trace ∧
    (Table.scan { name := "t" } none none none none none none false 4 none none false
      (simpleClient 7)
      [{ row := "r1", columnValues := [] }, { row := "r2", columnValues := [] },
       { row := "r3", columnValues := [] }, { row := "r4", columnValues := [] },
       { row := "r5", columnValues := [] }, { row := "r6", columnValues := [] },
       { row := "r7", columnValues := [] }, { row := "r8", columnValues := [] },
       { row := "r9", columnValues := [] }, { row := "r10", columnValues := [] }]
      (some 2) 10).trace.countP RPC.isOpenScanner = 1 :=
  scan_closes_scanner_exactly_once { name := "t" } none none none none none none
    false 4 none none false (simpleClient 7) _ (some 2) 10 (by rfl)

/-- Claim C7: whenever a row-key prefix is combined with an explicit start or stop
row, or `batch_size < 1`, or a supplied `limit < 1`, or a supplied
`scan_batching < 1`, the scan fails with an invalid-argument error
(ValueError/TypeError) and its RPC trace is empty — in particular no
`openScanner` is ever issued. -/
theorem scan_invalid_arguments_fail_before_rpc {σ : Type} (t : Table)
    (rowStart rowStop rowPrefix : Option String) (columns : Option (List String))
    (filterStr : Option String) (timerange : Option (List Int))
    (include_timestamp : Bool) (batch_size : Int) (scan_batching : Option Int)
    (limit : Option Int) (reversed : Bool) (client : ScanClient σ) (s0 : σ)
    (abandonAfter : Option Int) (fuel : Nat)
    (h : batch_size < 1 ∨ (∃ l, limit = some l ∧ l < 1) ∨
         (∃ sb, scan_batching = some sb ∧ sb < 1) ∨
         (rowPrefix.isSome = true ∧ (rowStart.isSome = true ∨ rowStop.isSome = true))) :
    (Table.scan t rowStart rowStop rowPrefix columns filterStr timerange
        include_timestamp batch_size scan_batching limit reversed client s0
        abandonAfter fuel).trace = [] ∧
    ∃ e, (Table.scan t rowStart rowStop rowPrefix columns filterStr timerange
        include_timestamp batch_size scan_batching limit reversed client s0
        abandonAfter fuel).exit = ScanExit.precall e ∧ e.isInvalidArgument = true := by
  rcases scanPrecheck_invalid rowStart rowStop rowPrefix columns filterStr timerange
      batch_size scan_batching limit reversed h with ⟨e, hpre, hinv⟩
  simp only [Table.scan, hpre]
  exact ⟨by simp, e, by simp, hinv⟩

/-- Witness for C7: a prefix combined with a start row fails with a
TypeError and issues no RPC. -/
theorem scan_invalid_arguments_fail_before_rpc_witness :
    (Table.scan { name := "t" } (some "a") none (some "p") none none none false 1000
      none none false (simpleClient 7) ([] : List TResult) none 5).trace = [] ∧
    ∃ e, (Table.scan { name := "t" } (some "a") none (some "p") none none none false 1000
      none none false (simpleClient 7) ([] : List TResult) none 5).exit =
        ScanExit.precall e ∧ e.isInvalidArgument = true :=
  scan_invalid_arguments_fail_before_rpc { name := "t" } (some "a") none (some "p")
    none none none false 1000 none none false (simpleClient 7) [] none 5
    (Or.inr (Or.inr (Or.inr ⟨rfl, Or.inl rfl⟩)))

/-- Claim C3 (code bug): `make_row` does not build a mapping from column reference
to value (or to a `(value, timestamp)` pair): it returns a *list* holding
one reference per input cell to a single shared dict, and that dict always
carries an extra `"timestamp"` key even when `include_timestamp` is false.
Evaluating the embedded source at a 2-cell input exhibits the actual shape:
two copies of the same dict, with the stray `"timestamp"` entry holding the
last cell's timestamp and no `(value, timestamp)` pairs. -/
theorem make_row_returns_aliased_list_not_mapping :
    make_row
      [{ family := "cf1", qualifier := "c1", value := "v1", timestamp := some 100 },
       { family := "cf1", qualifier := "c2", value := "v2", timestamp := some 200 }]
      false =
    [[("cf1:c1", PyVal.str "v1"), ("timestamp", PyVal.int 200), ("cf1:c2", PyVal.str "v2")],
     [("cf1:c1", PyVal.str "v1"), ("timestamp", PyVal.int 200), ("cf1:c2", PyVal.str "v2")]]
    := by
  rfl

/-- Claim C4 (code bug): `Table.put` with `wal = None` evaluates `self.wal`, but
`Table.__init__` never sets a `wal` attribute (the table handle is stateless
beyond its name and client), so the call raises AttributeError instead of
sending the table's configured default durability. -/
theorem put_wal_none_raises_attribute_error :
    Table.put { name := "tbl" } "r" [("cf:q", "v")] none none =
      Except.error (PyError.attributeError "Table object has no attribute wal") := by
  rfl

/-- Claim C5 (code bug): `make_timerange` on a 1-element list does not complete
the range with the current wall-clock time — it evaluates `time.now()`,
which does not exist (the standard `time` module has no attribute `now`),
so the call raises instead of returning a two-bound time range. -/
theorem make_timerange_one_element_raises :
    make_timerange (some [1000]) =
      Except.error (PyError.attributeError "module time has no attribute now") := by
  rfl

/-- Claim C10: `Table.puts` is `pass` — for every argument it returns `None`,
issues no RPC and changes no state. -/
theorem puts_is_noop : ∀ (α : Type) (t : Table) (x : α),
    Table.puts t x = ((), ([] : List RPC)) := by
  intro α t x
  rfl

lemma odInsert_of_not_mem (d : List (String × CellOut)) (k : String) (v : CellOut)
    (h : k ∉ d.map Prod.fst) : odInsert d k v = d ++ [(k, v)] := by
  simp [odInsert, h]

lemma odFold_keys (f : TSortedColumn → CellOut) :
    ∀ (cols : List TSortedColumn) (d : List (String × CellOut)),
      (d.map Prod.fst ++ cols.map TSortedColumn.columnName).Nodup →
      ((cols.foldl (fun d column => odInsert d column.columnName (f column)) d).map
          Prod.fst) =
        d.map Prod.fst ++ cols.map TSortedColumn.columnName := by
  intro cols
  induction cols with
  | nil => intro d h; simp
  | cons c rest ih =>
    intro d h
    have hdis : List.Disjoint (d.map Prod.fst)
        (c.columnName :: rest.map TSortedColumn.columnName) :=
      (List.nodup_append.mp (by simpa using h)).2.2
    have hc : c.columnName ∉ d.map Prod.fst := fun hmem =>
      hdis hmem (List.mem_cons_self _ _)
    have hstep : odInsert d c.columnName (f c) = d ++ [(c.columnName, f c)] :=
      odInsert_of_not_mem d c.columnName (f c) hc
    have hnodup2 : ((d ++ [(c.columnName, f c)]).map Prod.fst ++
        rest.map TSortedColumn.columnName).Nodup := by
      simpa [List.append_assoc] using h
    have := ih (d ++ [(c.columnName, f c)]) hnodup2
    simp only [List.foldl_cons, hstep]
    rw [this]
    simp [List.append_assoc]

/-- Claim C6 counterexample: the ordered row decoder does NOT sort by column
reference.  On input whose column names arrive as `["cf:b", "cf:a"]` the
result's iteration order is `["cf:b", "cf:a"]`, which is not sorted — so it
is not the sorted order of the column references that the claim promises. -/
theorem make_ordered_row_not_sorted :
    (make_ordered_row
      [{ columnName := "cf:b", cell := { value := "1", timestamp := some 1 } },
       { columnName := "cf:a", cell := { value := "2", timestamp := some 2 } }]
      false).map Prod.fst = ["cf:b", "cf:a"] ∧
    (make_ordered_row
      [{ columnName := "cf:b", cell := { value := "1", timestamp := some 1 } },
       { columnName := "cf:a", cell := { value := "2", timestamp := some 2 } }]
      false).map Prod.fst ≠ ["cf:a", "cf:b"] := by
  constructor
  · rfl
  · decide

/-- Claim C6 (amended): `make_ordered_row` preserves the input order of its
(caller-pre-sorted) `sorted_columns` argument: under distinct column names
the iteration order of the resulting OrderedDict is exactly the input
order.  Determinism across repeated calls is immediate since the decoder is
a pure function of its input. -/
theorem make_ordered_row_preserves_input_order (cols : List TSortedColumn)
    (include_timestamp : Bool)
    (h : (cols.map TSortedColumn.columnName).Nodup) :
    (make_ordered_row cols include_timestamp).map Prod.fst =
      cols.map TSortedColumn.columnName := by
  have := odFold_keys
    (fun column =>
      if include_timestamp then CellOut.withTs column.cell.value column.cell.timestamp
      else CellOut.plain column.cell.value)
    cols [] (by simpa using h)
  simpa [make_ordered_row] using this

/-- Witness for C6's amended theorem at a concrete non-sorted input. -/
theorem make_ordered_row_preserves_input_order_witness :
    (make_ordered_row
      [{ columnName := "cf:b", cell := { value := "1", timestamp := some 1 } },
       { columnName := "cf:a", cell := { value := "2", timestamp := some 2 } }]
      false).map Prod.fst = ["cf:b", "cf:a"] :=
  make_ordered_row_preserves_input_order
    [{ columnName := "cf:b", cell := { value := "1", timestamp := some 1 } },
     { columnName := "cf:a", cell := { value := "2", timestamp := some 2 } }]
    false (by decide)

/-- Claim C8: `Table.rows` on the empty key list returns the empty result with an
empty RPC trace; on a non-empty key list it issues exactly one `getMultiple`
RPC covering all keys and returns the `(key, row)` pairs in the order of the
server's response list. -/
theorem rows_empty_no_rpc_nonempty_single_rpc (t : Table) (rowKeys : List String)
    (columns : Option (List String)) (ts : Option Int) (tr : Option (List Int))
    (mv : Int) (inc : Bool) (serverResults : List TResult)
    (hne : rowKeys ≠ []) :
    Table.rows t [] columns ts tr mv inc serverResults = (RowsResult.emptyDict, []) ∧
    (Table.rows t rowKeys columns ts tr mv inc serverResults).2 =
      [RPC.getMultiple t.name
        (rowKeys.map fun k =>
          { row := k, columns := columns.map ColumnsArg.raw, timestamp := ts,
            timeRange := tr.map TimeRangeArg.raw, maxVersions := mv })] ∧
    (Table.rows t rowKeys columns ts tr mv inc serverResults).1 =
      RowsResult.pairs
        (serverResults.map fun r => (r.row, make_row r.columnValues inc)) := by
  refine ⟨rfl, ?_, ?_⟩ <;> simp [Table.rows, hne]

/-- Witness for C8 at concrete inputs. -/
theorem rows_empty_no_rpc_nonempty_single_rpc_witness :
    Table.rows { name := "tbl" } [] (some ["cf:c"]) none (some [1, 2]) 1 false
        [] = (RowsResult.emptyDict, []) ∧
    (Table.rows { name := "tbl" } ["k1", "k2"] (some ["cf:c"]) none (some [1, 2]) 1 false
        [{ row := "k1", columnValues := [] }]).2 =
      [RPC.getMultiple "tbl"
        (["k1", "k2"].map fun k =>
          { row := k, columns := (some ["cf:c"]).map ColumnsArg.raw, timestamp := none,
            timeRange := (some [1, 2]).map TimeRangeArg.raw, maxVersions := 1 })] ∧
    (Table.rows { name := "tbl" } ["k1", "k2"] (some ["cf:c"]) none (some [1, 2]) 1 false
        [{ row := "k1", columnValues := [] }]).1 =
      RowsResult.pairs
        (([{ row := "k1", columnValues := [] }] : List TResult).map
          fun r => (r.row, make_row r.columnValues false)) :=
  rows_empty_no_rpc_nonempty_single_rpc { name := "tbl" } ["k1", "k2"] (some ["cf:c"])
    none (some [1, 2]) 1 false [{ row := "k1", columnValues := [] }] (by decide)

/-- Claim C9: `Table.rows` places the caller's `columns` and `timerange` arguments
verbatim (`ColumnsArg.raw` / `TimeRangeArg.raw`) into every per-key `TGet`
of its single `getMultiple` request — no `make_columns` split and no
`make_timerange` conversion — whereas `Table.row` sends a `TGet` whose
fields went through both codecs (`structured`). -/
theorem rows_sends_raw_row_sends_converted (t : Table) (rowKeys : List String)
    (columns : Option (List String)) (ts : Option Int) (tr : Option (List Int))
    (mv : Int) (inc : Bool) (serverResults : List TResult) (rowKey : String)
    (res : Option TResult) (cols : Option (List TColumn)) (tt : Option TTimeRange)
    (hne : rowKeys ≠ [])
    (hc : make_columns columns = Except.ok cols)
    (ht : make_timerange tr = Except.ok tt) :
    (Table.rows t rowKeys columns ts tr mv inc serverResults).2 =
      [RPC.getMultiple t.name
        (rowKeys.map fun k =>
          { row := k, columns := columns.map ColumnsArg.raw, timestamp := ts,
            timeRange := tr.map TimeRangeArg.raw, maxVersions := mv })] ∧
    (∃ out, Table.row t rowKey columns ts tr mv inc res = Except.ok (out,
      [RPC.get t.name
        { row := rowKey, columns := cols.map ColumnsArg.structured, timestamp := ts,
          timeRange := tt.map TimeRangeArg.structured, maxVersions := mv }])) := by
  constructor
  · simp [Table.rows, hne]
  · unfold Table.row
    rw [hc, ht]
    cases res <;> exact ⟨_, rfl⟩

/-- Witness for C9 at concrete inputs: the multi-get carries the raw
`"cf:c"` string and raw `[1, 2]` range, the single-get the structured
column pair and structured time range. -/
theorem rows_sends_raw_row_sends_converted_witness :
    (Table.rows { name := "tbl" } ["k1"] (some ["cf:c"]) none (some [1, 2]) 1 false []).2 =
      [RPC.getMultiple "tbl"
        (["k1"].map fun k =>
          { row := k, columns := (some ["cf:c"]).map ColumnsArg.raw, timestamp := none,
            timeRange := (some [1, 2]).map TimeRangeArg.raw, maxVersions := 1 })] ∧
    (∃ out, Table.row { name := "tbl" } "k" (some ["cf:c"]) none (some [1, 2]) 1 false
        none = Except.ok (out,
      [RPC.get "tbl"
        { row := "k",
          columns := (some [{ family := "cf", qualifier := "c" }]).map
            ColumnsArg.structured,
          timestamp := none,
          timeRange := (some { minStamp := 1, maxStamp := 2 }).map
            TimeRangeArg.structured,
          maxVersions := 1 }])) :=
  rows_sends_raw_row_sends_converted { name := "tbl" } ["k1"] (some ["cf:c"]) none
    (some [1, 2]) 1 false [] "k" none (some [{ family := "cf", qualifier := "c" }])
    (some { minStamp := 1, maxStamp := 2 }) (by decide) (by rfl) (by rfl)

lemma expectedHowManysAux_stable (b : Nat) (hb : 1 ≤ b) :
    ∀ (f g L : Nat), L ≤ f → L ≤ g →
      expectedHowManysAux b f L = expectedHowManysAux b g L := by
  intro f
  induction f with
  | zero =>
    intro g L hf hg
    have hL0 : L = 0 := by omega
    subst hL0
    cases g <;> simp [expectedHowManysAux]
  | succ f ih =>
    intro g L hf hg
    cases L with
    | zero => cases g <;> simp [expectedHowManysAux]
    | succ k =>
      cases g with
      | zero => omega
      | succ g2 =>
        simp only [expectedHowManysAux]
        congr 1
        exact ih g2 (k + 1 - min b (k + 1)) (by omega) (by omega)

lemma expectedHowManys_pos (b L : Nat) (hb : 1 ≤ b) (hL : 1 ≤ L) :
    expectedHowManys b L = min b L :: expectedHowManys b (L - min b L) := by
  cases L with
  | zero => omega
  | succ k =>
    show expectedHowManysAux b (k + 1) (k + 1) = _
    simp only [expectedHowManysAux]
    congr 1
    exact expectedHowManysAux_stable b hb k (k + 1 - min b (k + 1))
      (k + 1 - min b (k + 1)) (by omega) (by omega)

lemma processBatch_run (inc : Bool) (L : Int) :
    ∀ (items : List TResult) (n : Int), items ≠ [] → n + items.length ≤ L →
      processBatch inc (some L) none items n =
        (items.map fun it => (it.row, make_row it.columnValues inc),
         n + items.length,
         if n + (items.length : Int) = L then some ScanExit.limitReached else none) := by
  intro items
  induction items with
  | nil => intro n h hle; exact absurd rfl h
  | cons item rest ih =>
    intro n hne hle
    rw [processBatch]
    rw [if_neg (by simp)]
    by_cases hlim : L = n + 1
    · have hrest : rest = [] := by
        have := hle
        simp only [List.length_cons] at this
        push_cast at this
        have : rest.length = 0 := by omega
        exact List.length_eq_zero.mp this
      subst hrest
      rw [if_pos (by rw [hlim])]
      simp only [List.map_cons, List.map_nil, List.length_cons, List.length_nil]
      rw [if_pos (by push_cast; omega)]
      norm_num
    · rw [if_neg (by simp; omega)]
      cases rest with
      | nil =>
        simp only [processBatch, List.map_cons, List.map_nil, List.length_cons,
          List.length_nil]
        rw [if_neg (by push_cast; omega)]
        norm_num
      | cons r2 rest2 =>
        rw [ih (n + 1) (by simp) (by simp only [List.length_cons] at hle ⊢; push_cast at hle ⊢; omega)]
        simp only [List.map_cons, List.length_cons]
        refine congrArg _ ?_
        congr 1
        · push_cast; ring
        · refine if_congr ?_ rfl rfl
          push_cast
          omega

lemma scanLoop_simpleClient (id : Int) (b L : Int) (inc : Bool) (hb : 1 ≤ b) :
    ∀ (fuel : Nat) (s : List TResult) (n : Int),
      n < L → (L - n).toNat ≤ s.length → (L - n).toNat ≤ fuel →
      scanLoop (simpleClient id) (some L) b inc none fuel s n =
        ((expectedHowManys b.toNat (L - n).toNat).map
           (fun (k : Nat) => RPC.getScannerRows id (k : Int)),
         (s.take (L - n).toNat).map (fun it => (it.row, make_row it.columnValues inc)),
         ScanExit.limitReached) := by
  intro fuel
  induction fuel with
  | zero => intro s n hn hs hf; omega
  | succ fuel ih =>
    intro s n hn hs hf
    rw [scanLoop]
    simp only [scanHowMany, simpleClient, simpleFetch]
    generalize hgen : min b (L - n) = m
    generalize hgenN : m.toNat = mN
    have hm1 : 1 ≤ m := by omega
    have hmN_int : (mN : Int) = m := by omega
    have hmN_pos : 1 ≤ mN := by omega
    have hmN_le : mN ≤ (L - n).toNat := by omega
    have hminNat : min b.toNat (L - n).toNat = mN := by omega
    have htake_len : (s.take mN).length = mN := by
      rw [List.length_take]; omega
    have htake_ne : s.take mN ≠ [] := by
      intro hcontra
      have hlen := congrArg List.length hcontra
      rw [htake_len] at hlen
      simp at hlen
      omega
    have hisEmpty : (s.take mN).isEmpty = false := by
      cases hcase : s.take mN with
      | nil => exact absurd hcase htake_ne
      | cons a as => rfl
    have hle2 : n + ((s.take mN).length : Int) ≤ L := by
      rw [htake_len]; omega
    rw [hisEmpty]
    simp only [Bool.false_eq_true, if_false]
    rw [processBatch_run inc L (s.take mN) n htake_ne hle2]
    simp only [htake_len]
    rw [expectedHowManys_pos b.toNat ((L - n).toNat) (by omega) (by omega), hminNat]
    by_cases hfin : n + (mN : Int) = L
    · rw [if_pos hfin]
      have hR : mN = (L - n).toNat := by omega
      have hzero : (L - n).toNat - mN = 0 := by omega
      rw [hzero]
      have hexp0 : expectedHowManys b.toNat 0 = [] := rfl
      rw [hexp0]
      rw [← hmN_int, hR]
      simp
    · rw [if_neg hfin]
      have hrec := ih (s.drop mN) (n + (mN : Int))
        (by omega)
        (by rw [List.length_drop]; omega)
        (by omega)
      simp only [simpleClient] at hrec
      dsimp only
      rw [hrec]
      have hrem : (L - (n + (mN : Int))).toNat = (L - n).toNat - mN := by omega
      rw [hrem]
      rw [← hmN_int]
      simp only [List.map_cons]
      have htk : s.take ((L - n).toNat) =
          s.take mN ++ (s.drop mN).take ((L - n).toNat - mN) := by
        rw [← List.take_add]
        congr 1
        omega
      rw [htk, List.map_append]

lemma rpcFetchCount_gsr (i k : Int) :
    rpcFetchCount (RPC.getScannerRows i k) = some k := rfl

lemma rpcFetchCount_open (tname : String) (ts : TScan) :
    rpcFetchCount (RPC.openScanner tname ts) = none := rfl

lemma rpcFetchCount_close (i : Int) :
    rpcFetchCount (RPC.closeScanner i) = none := rfl

lemma scanLoop_noLimit_fetch_eq_batch {σ : Type} (client : ScanClient σ) (b : Int)
    (inc : Bool) (ab : Option Int) :
    ∀ (fuel : Nat) (s : σ) (n : Int) (hm : Int),
      hm ∈ fetchCounts (scanLoop client none b inc ab fuel s n).1 → hm = b := by
  intro fuel
  induction fuel with
  | zero => intro s n hm h; simp [scanLoop, fetchCounts] at h
  | succ fuel ih =>
    intro s n hm h
    rw [scanLoop] at h
    split at h
    · simp [fetchCounts, scanHowMany, rpcFetchCount_gsr] at h
      exact h
    · split at h
      · simp [fetchCounts, scanHowMany, rpcFetchCount_gsr] at h
        exact h
      · split at h
        · simp [fetchCounts, scanHowMany, rpcFetchCount_gsr] at h
          exact h
        · simp only [fetchCounts, List.filterMap_cons, scanHowMany,
            rpcFetchCount_gsr] at h
          rcases List.mem_cons.mp h with h1 | h2
          · exact h1
          · exact ih _ _ hm (by simpa [fetchCounts] using h2)

lemma scanPrecheck_basic_ok (rowStart rowStop : Option String)
    (filterStr : Option String) (b : Int) (limit : Option Int) (reversed : Bool)
    (hb : 1 ≤ b) (hl : badOptInt limit = false) :
    scanPrecheck rowStart rowStop none none filterStr none b none limit reversed =
      Except.ok { startRow := rowStart.getD "", stopRow := rowStop, timeRange := none,
                  columns := none, caching := b, filterString := filterStr,
                  batchSize := none, reversed := reversed } := by
  have h1 : ¬ b < 1 := by omega
  simp only [scanPrecheck, if_neg h1, hl, Bool.false_eq_true, if_false,
    make_columns, make_timerange]
  rfl

/-- Claim C2: a scan with limit `L ≥ 1` over a range holding at least `L` matching
rows yields exactly `L` rows (never more) and terminates by reaching the
limit; the sequence of `getScannerRows` request sizes it issues is exactly
the spec's `min(batchSize, L - rowsAlreadyYielded)` schedule
(`expectedHowManys`); and with no limit every fetch, against any client
behaviour whatsoever, requests exactly `batchSize` rows. -/
theorem scan_limit_yields_and_fetch_sizes (t : Table)
    (rowStart rowStop : Option String) (filterStr : Option String)
    (inc reversed : Bool) (id : Int) (allRows : List TResult) (b L : Int) (fuel : Nat)
    (hb : 1 ≤ b) (hL : 1 ≤ L) (hrows : L.toNat ≤ allRows.length)
    (hfuel : L.toNat ≤ fuel) :
    (Table.scan t rowStart rowStop none none filterStr none inc b none (some L)
        reversed (simpleClient id) allRows none fuel).yields.length = L.toNat ∧
    (Table.scan t rowStart rowStop none none filterStr none inc b none (some L)
        reversed (simpleClient id) allRows none fuel).exit = ScanExit.limitReached ∧
    fetchCounts (Table.scan t rowStart rowStop none none filterStr none inc b none
        (some L) reversed (simpleClient id) allRows none fuel).trace =
      (expectedHowManys b.toNat L.toNat).map (fun (k : Nat) => (k : Int)) ∧
    (∀ (σ : Type) (c : ScanClient σ) (s0 : σ) (ab : Option Int) (fuel2 : Nat),
      ∀ hm ∈ fetchCounts (Table.scan t rowStart rowStop none none filterStr none inc b
          none none reversed c s0 ab fuel2).trace, hm = b) := by
  have hpreL := scanPrecheck_basic_ok rowStart rowStop filterStr b (some L) reversed hb
    (by simp [badOptInt]; omega)
  have hloop := scanLoop_simpleClient id b L inc hb fuel allRows 0
    (by omega) (by simpa using hrows) (by simpa using hfuel)
  rw [show L - 0 = L from by ring] at hloop
  refine ⟨?_, ?_, ?_, ?_⟩
  · simp only [Table.scan, hpreL, hloop]
    simp [List.length_take]
    omega
  · simp only [Table.scan, hpreL, hloop]
  · simp only [Table.scan, hpreL, hloop]
    simp [fetchCounts, List.filterMap_append, List.filterMap_cons,
      rpcFetchCount_open, rpcFetchCount_close, List.filterMap_map, rpcFetchCount_gsr,
      Function.comp]
    rw [show (rpcFetchCount ∘ fun (k : Nat) => RPC.getScannerRows id (k : Int)) =
        (some ∘ fun (k : Nat) => (k : Int)) from rfl]
    rw [List.filterMap_eq_map]
  · intro σ c s0 ab fuel2 hm hmem
    cases hpre2 : scanPrecheck rowStart rowStop none none filterStr none b none none
        reversed with
    | error e =>
      simp only [Table.scan, hpre2] at hmem
      simp [fetchCounts] at hmem
    | ok tscan =>
      simp only [Table.scan, hpre2] at hmem
      refine scanLoop_noLimit_fetch_eq_batch c b inc ab fuel2 s0 0 hm ?_
      simpa [fetchCounts, List.filterMap_append, List.filterMap_cons,
        rpcFetchCount_open, rpcFetchCount_close] using hmem

/-- Witness for C2: limit 2, batch size 3, a server with 5 rows — exactly 2
rows yielded, one fetch of size `min(3, 2) = 2`. -/
theorem scan_limit_yields_and_fetch_sizes_witness :
    (Table.scan { name := "t" } none none none none none none false 3 none (some 2)
        false (simpleClient 7)
        [{ row := "r1", columnValues := [] }, { row := "r2", columnValues := [] },
         { row := "r3", columnValues := [] }, { row := "r4", columnValues := [] },
         { row := "r5", columnValues := [] }] none 2).yields.length = (2 : Int).toNat ∧
    (Table.scan { name := "t" } none none none none none none false 3 none (some 2)
        false (simpleClient 7)
        [{ row := "r1", columnValues := [] }, { row := "r2", columnValues := [] },
         { row := "r3", columnValues := [] }, { row := "r4", columnValues := [] },
         { row := "r5", columnValues := [] }] none 2).exit = ScanExit.limitReached ∧
    fetchCounts (Table.scan { name := "t" } none none none none none none false 3 none
        (some 2) false (simpleClient 7)
        [{ row := "r1", columnValues := [] }, { row := "r2", columnValues := [] },
         { row := "r3", columnValues := [] }, { row := "r4", columnValues := [] },
         { row := "r5", columnValues := [] }] none 2).trace =
      (expectedHowManys (3 : Int).toNat (2 : Int).toNat).map (fun (k : Nat) => (k : Int)) ∧
    (∀ (σ : Type) (c : ScanClient σ) (s0 : σ) (ab : Option Int) (fuel2 : Nat),
      ∀ hm ∈ fetchCounts (Table.scan { name := "t" } none none none none none none false
          3 none none false c s0 ab fuel2).trace, hm = 3) :=
  scan_limit_yields_and_fetch_sizes { name := "t" } none none none false false 7
    [{ row := "r1", columnValues := [] }, { row := "r2", columnValues := [] },
     { row := "r3", columnValues := [] }, { row := "r4", columnValues := [] },
     { row := "r5", columnValues := [] }] 3 2 2
    (by decide) (by decide) (by decide) (by decide)

end EasyBase
